/-
Verification of the ClaudeCron MCP server core (cron_mcp package) against its
natural-language specification.

The Python sources are shallowly embedded as executable Lean definitions:
  * time is modelled as `Nat` seconds since an arbitrary epoch; a cron schedule
    (five-field format, minute granularity) is modelled by its matching
    predicate on minute indices, so the schedule's matching instants are the
    values `60 * m` with `cronMatch m = true`;
  * SQLite tables are modelled as association lists / lists of rows;
  * Python exceptions are modelled with `Except`, and `try/except` blocks as
    case analysis on the `Except` value;
  * I/O outcomes (subprocess completion, HTTP responses, the Anthropic API)
    are modelled as oracle parameters enumerating the outcomes the code
    distinguishes.
-/

import Mathlib

namespace CronMCP

/-! ## Scheduler (`cron_mcp/scheduler.py`)

`CronScheduler._should_run` decides whether an enabled task with a non-null
cron schedule is due at instant `now`.  The croniter call
`croniter(schedule, base).get_next(datetime)` returns the earliest
schedule-matching instant *strictly after* `base`; for a five-field cron
expression those instants are whole minutes.  croniter searches forward and
raises if no match is found within its horizon, which the code's
`except` clause turns into `False`; the search horizon is modelled by `fuel`.
-/

/-- Forward search for the first minute index `m ≥ start` with
`cronMatch m = true`, giving up after `fuel` candidates (croniter's bounded
forward search). -/
def findMatchingMinute (cronMatch : Nat → Bool) : Nat → Nat → Option Nat
  | _, 0 => none
  | start, fuel + 1 =>
      if cronMatch start then some start else findMatchingMinute cronMatch (start + 1) fuel

/-- `croniter(schedule, base).get_next(datetime)`: the earliest matching
instant strictly after `base`.  The smallest minute index `m` with
`60 * m > base` is `base / 60 + 1`. -/
def cronGetNext (cronMatch : Nat → Bool) (base : Nat) (fuel : Nat) : Option Nat :=
  (findMatchingMinute cronMatch (base / 60 + 1) fuel).map (fun m => 60 * m)

/-- `CronScheduler._should_run` (scheduler.py lines 111–146) for a task whose
`schedule` column is non-null.  `last_run` is the `started_at` of the most
recent history row (`_get_last_run`), or `none` when the task has no history.
The base time is `last_run` when present, otherwise `now` truncated to the
minute (`now.replace(second=0, microsecond=0)`).  The task is due iff
`next_run <= now` and (`last_run is None` or `next_run > last_run`); any
croniter failure yields `False` via the `except` clause. -/
def shouldRun (cronMatch : Nat → Bool) (last_run : Option Nat) (now : Nat) (fuel : Nat) : Bool :=
  let base := match last_run with
    | some lr => lr
    | none => 60 * (now / 60)
  match cronGetNext cronMatch base fuel with
  | none => false
  | some next_run =>
      if next_run ≤ now then
        match last_run with
        | none => true
        | some lr => decide (lr < next_run)
      else false

/-! ## Scheduler running-set (`cron_mcp/scheduler.py`)

`_check_and_run_tasks` launches a due task with
`asyncio.create_task(self._run_task_with_semaphore(task['id']))` and moves on;
the launched coroutine first awaits the concurrency semaphore, only then adds
the id to `self._running_tasks`, runs the executor inside `try`, and discards
the id in `finally`.  The set states visible along one execution are modelled
as a trace. -/

/-- Outcome of awaiting `self.task_executor(task_id)`. -/
inductive ExecOutcome
  | ok
  | exc
deriving DecidableEq, Repr

/-- The running-set states of one dispatched execution, in order:
(1) just after `asyncio.create_task` launched the unit, before the semaphore
is acquired (scheduler.py line 109 vs. line 176); (2) while the executor runs
inside the `try` block; (3) after the `finally` discarded the id.  The
executor outcome does not change the set operations: the `except` swallows
the exception and the `finally` runs either way. -/
def runTaskTrace (taskId : String) (s0 : Finset String) (outcome : ExecOutcome) :
    List (Finset String) :=
  match outcome with
  | .ok => [s0, insert taskId s0, (insert taskId s0).erase taskId]
  | .exc => [s0, insert taskId s0, (insert taskId s0).erase taskId]

/-! ## Recursion guard of the Mode A executor (`cron_mcp/subagent_mcp.py`)

The context variable `_subagent_depth` is modelled by an explicit `Nat`
counter threaded through the call chain.  `check_recursion_depth` raises
`RecursionLimitExceeded` at or above `MAX_SUBAGENT_DEPTH`, otherwise stores
`current + 1` and returns it; `reset_recursion_depth(depth)` stores
`max(0, depth - 1)`.  `SubagentExecutorMCP.execute` initialises its local
`depth = 0`, calls the check inside its `try`, and in its `finally` calls the
reset only when `depth > 0` (i.e. only when the check succeeded). -/

def MAX_SUBAGENT_DEPTH : Nat := 3

/-- `check_recursion_depth` (subagent_mcp.py lines 40–48): raising is the
`Except.error` case; on success the result is (new counter value, value
returned to the caller), both `current + 1`. -/
def check_recursion_depth (current : Nat) : Except String (Nat × Nat) :=
  if current ≥ MAX_SUBAGENT_DEPTH then
    Except.error ("Subagent recursion limit exceeded (max: " ++ toString MAX_SUBAGENT_DEPTH ++ ")")
  else Except.ok (current + 1, current + 1)

/-- `reset_recursion_depth(depth)` (lines 51–53): the counter is set to
`max(0, depth - 1)`, ignoring its current value. -/
def reset_recursion_depth (depth : Nat) : Nat := max 0 (depth - 1)

/-- Result of a nested chain of `SubagentExecutorMCP.execute` invocations. -/
structure ChainResult where
  /-- counter value after the whole chain has unwound -/
  finalCtx : Nat
  /-- whether the innermost invocation failed with `RecursionLimitExceeded` -/
  recursionError : Bool
  /-- largest counter value observed anywhere in the chain -/
  maxCtx : Nat
deriving DecidableEq, Repr

/-- A nested chain of `n` `execute` invocations starting with counter `ctx`:
each invocation runs `check_recursion_depth`; on `RecursionLimitExceeded` its
local `depth` stays `0`, so the `finally` skips the reset and the counter is
unchanged; otherwise the next invocation of the chain runs at the incremented
counter and, when it returns, the outer `finally` calls
`reset_recursion_depth(depth)` with its own local `depth` (every exit path —
success, failure result, or exception — passes through that `finally`). -/
def nestedChain : Nat → Nat → ChainResult
  | 0, ctx => { finalCtx := ctx, recursionError := false, maxCtx := ctx }
  | n + 1, ctx =>
      match check_recursion_depth ctx with
      | .error _ => { finalCtx := ctx, recursionError := true, maxCtx := ctx }
      | .ok (ctx1, depth) =>
          let inner := nestedChain n ctx1
          { finalCtx := reset_recursion_depth depth
            recursionError := inner.recursionError
            maxCtx := max ctx (max inner.maxCtx (reset_recursion_depth depth)) }

/-! ## Task executor (`cron_mcp/server.py`, `execute_task`)

After loading the task row and inserting a `running` history row,
`execute_task` dispatches on the `type` column inside a `try` whose handlers
turn `asyncio.TimeoutError` and any other exception into `status = "failed"`
with an error string; it then finalizes the history row and returns a summary
with the finalized fields.  The subprocess / subagent interactions are
modelled as outcome oracles. -/

/-- The `timeout=300` argument of `asyncio.wait_for(proc.communicate(), ...)`
in the bash branch (server.py line 205). -/
def BASH_TIMEOUT_SECONDS : Nat := 300

/-- The finalized fields of a history row / result summary. -/
structure ExecRecord where
  status : String
  output : Option String
  error : Option String
  toolCalls : List (String × Bool)
  turnsUsed : Nat
deriving DecidableEq, Repr

/-- Outcome of the bash branch's interaction with the subprocess:
it either completed (exit code, decoded stdout, decoded stderr — empty string
for empty pipe output), timed out after 300 s, or some other exception was
raised. -/
inductive BashOutcome
  | completed (returncode : Int) (stdout : String) (stderr : String)
  | timedOut
  | raised (msg : String)
deriving DecidableEq, Repr

/-- Outcome of the subagent branch: the dispatcher returned a
`SubagentResult` (success flag, output text, optional error, tool-call log
as (tool, success) pairs, turns used), or the branch raised. -/
inductive SubagentOutcome
  | returned (success : Bool) (output : String) (error : Option String)
      (toolCalls : List (String × Bool)) (turnsUsed : Nat)
  | timedOut
  | raised (msg : String)
deriving DecidableEq, Repr

/-- The bash branch plus `except` handlers (server.py lines 198–210 and
255–261): `output = stdout.decode() if stdout else None`; on non-zero exit
`status = "failed"` and `error = stderr.decode() if stderr else
f"Exit code: {returncode}"`. -/
def finalizeBash : BashOutcome → ExecRecord
  | .completed rc out err =>
      let output := if out = "" then none else some out
      if rc ≠ 0 then
        { status := "failed", output := output
          error := some (if err = "" then "Exit code: " ++ toString rc else err)
          toolCalls := [], turnsUsed := 0 }
      else
        { status := "success", output := output, error := none
          toolCalls := [], turnsUsed := 0 }
  | .timedOut =>
      { status := "failed", output := none, error := some "Task execution timed out"
        toolCalls := [], turnsUsed := 0 }
  | .raised msg =>
      { status := "failed", output := none, error := some msg
        toolCalls := [], turnsUsed := 0 }

/-- The tool-call summary appended to the subagent branch's output when the
dispatcher logged tool calls (server.py lines 246–249). -/
def appendToolCallSummary (output : String) (turnsUsed : Nat)
    (toolCalls : List (String × Bool)) : String :=
  if toolCalls.isEmpty then output
  else
    toolCalls.foldl
      (fun acc tc => acc ++ "- " ++ tc.1 ++ ": " ++ (if tc.2 then "✓" else "✗") ++ "\n")
      (output ++ "\n\n--- Tool Calls (" ++ toString turnsUsed ++ " turns) ---\n")

/-- The subagent branch plus `except` handlers (server.py lines 212–261):
the dispatcher's output (a string, possibly empty) is stored as-is, the
summary appended when tool calls exist, and `status = "failed"` with
`error = result.error` when `result.success` is false. -/
def finalizeSubagent : SubagentOutcome → ExecRecord
  | .returned success out err tcs turns =>
      let output := appendToolCallSummary out turns tcs
      if success then
        { status := "success", output := some output, error := none
          toolCalls := tcs, turnsUsed := turns }
      else
        { status := "failed", output := some output, error := err
          toolCalls := tcs, turnsUsed := turns }
  | .timedOut =>
      { status := "failed", output := none, error := some "Task execution timed out"
        toolCalls := [], turnsUsed := 0 }
  | .raised msg =>
      { status := "failed", output := none, error := some msg
        toolCalls := [], turnsUsed := 0 }

/-- `execute_task`'s type dispatch (server.py lines 190–274) for an existing
task: only the strings `"bash"` and `"subagent"` select a branch; any other
stored type leaves the initial values `status = "success"`,
`output = None`, `error = None` untouched. -/
def executeTaskRecord (taskType : String) (bash : BashOutcome)
    (sub : SubagentOutcome) : ExecRecord :=
  if taskType = "bash" then finalizeBash bash
  else if taskType = "subagent" then finalizeSubagent sub
  else { status := "success", output := none, error := none, toolCalls := [], turnsUsed := 0 }

/-- The notification step (server.py lines 292–303): its own `try/except`
swallows any notifier failure, so the returned summary is the finalized
record either way. -/
def executeTaskSummary (taskType : String) (bash : BashOutcome) (sub : SubagentOutcome)
    (notifier : ExecRecord → Except String Unit) : ExecRecord :=
  let result := executeTaskRecord taskType bash sub
  match notifier result with
  | .ok _ => result
  | .error _ => result

/-- The `type` validation of `claudecron_add_task` (server.py lines 486–488):
`if type not in ['bash', 'subagent']` returns an error payload before any
persistence. -/
def addTaskTypeCheck (taskType : String) : Except String Unit :=
  if taskType = "bash" ∨ taskType = "subagent" then Except.ok ()
  else Except.error "Type must be 'bash' or 'subagent'"

/-! ## MCP Client Hub (`cron_mcp/mcp_client.py`)

Strings, substring tests (`pattern in tool.name`) and `dict.get` are
modelled directly; the `input_schema` dict is abstracted to an opaque string
payload. -/

/-- Python's `pat in hay` substring test on strings. -/
def strContainsSub (hay : String) (pat : String) : Bool :=
  (List.range (hay.toList.length + 1)).any
    (fun i => pat.toList.isPrefixOf (hay.toList.drop i))

/-- Python `dict.get` over an association list with distinct keys. -/
def dictGet {α : Type} : List (String × α) → String → Option α
  | [], _ => none
  | kv :: rest, k => if kv.1 = k then some kv.2 else dictGet rest k

/-- An `MCPTool` (mcp_client.py lines 24–30); `input_schema` abstracted. -/
structure MCPTool where
  name : String
  description : String
  input_schema : String
deriving DecidableEq, Repr

/-- A `{name, description, input_schema}` entry of the list returned by
`to_anthropic_format`. -/
structure AnthropicToolSpec where
  name : String
  description : String
  input_schema : String
deriving DecidableEq, Repr

/-- The local `exclude` list of `to_anthropic_format`: a copy of the
caller's patterns (`list(exclude_patterns) if exclude_patterns else []`,
where an empty or missing list is falsy) with `"claudecron_"` appended. -/
def buildExclude (exclude_patterns : Option (List String)) : List String :=
  (match exclude_patterns with
    | some ps => ps
    | none => []) ++ ["claudecron_"]

/-- `MCPClientHub.to_anthropic_format` (mcp_client.py lines 254–282).
`sessions` is the tool lists of `self.sessions.values()`.  The code appends
to a copy of the caller's pattern list, so the caller's list object is
unchanged after the call; the second component of the result models the
caller-visible `exclude_patterns` once the call returns. -/
def toAnthropicFormat (sessions : List (List MCPTool))
    (exclude_patterns : Option (List String)) :
    List AnthropicToolSpec × Option (List String) :=
  ((sessions.map (fun sessionTools =>
      sessionTools.filterMap (fun tool =>
        if (buildExclude exclude_patterns).any
            (fun pattern => strContainsSub tool.name pattern) then none
        else some { name := tool.name, description := tool.description
                    input_schema := tool.input_schema }))).flatten,
   exclude_patterns)

/-- A parsed JSON-RPC body as `call_tool` inspects it: it has an `"error"`
member, or a `"result"` member (payload abstracted), or neither
(`result.get("result", {})` then yields the empty dict). -/
inductive RpcParsed
  | withError (e : String)
  | withResult (payload : String)
  | neither
deriving DecidableEq, Repr

/-- Outcome of the HTTP round trip inside `call_tool`'s `try`: the POST plus
`raise_for_status` plus `_parse_response` either produced a parsed body or
raised. -/
inductive HttpOutcome
  | responded (parsed : RpcParsed)
  | raisedExc (msg : String)
deriving DecidableEq, Repr

/-- What `call_tool` hands back to its caller: a dict with an `"error"` key,
the `"result"` payload, or the empty dict default. -/
inductive CallToolResult
  | errorResult (message : String)
  | okResult (payload : String)
  | emptyResult
deriving DecidableEq, Repr

/-- The remote invocation inside the `try` block, as a raising operation. -/
def remoteToolCall (outcome : HttpOutcome) : Except String RpcParsed :=
  match outcome with
  | .responded p => Except.ok p
  | .raisedExc msg => Except.error msg

/-- `MCPClientHub.call_tool` (mcp_client.py lines 205–252).  `toolToServer`
models `self._tool_to_server`; `sessions` maps a server url to whether
`session.client` is non-null.  An `Except.error` of the outer value would be
an exception escaping to the caller; every path wraps its answer in
`Except.ok`.  `if not server_url` is Python truthiness, so an empty mapped
url is also treated as unmapped. -/
def callTool (toolToServer : List (String × String)) (sessions : List (String × Bool))
    (toolName : String) (outcome : HttpOutcome) : Except String CallToolResult :=
  match dictGet toolToServer toolName with
  | none => Except.ok (.errorResult ("Tool not found: " ++ toolName))
  | some serverUrl =>
      if serverUrl = "" then Except.ok (.errorResult ("Tool not found: " ++ toolName))
      else
        match dictGet sessions serverUrl with
        | none => Except.ok (.errorResult ("Not connected to server for tool: " ++ toolName))
        | some hasClient =>
            if ¬ hasClient then
              Except.ok (.errorResult ("Not connected to server for tool: " ++ toolName))
            else
              match remoteToolCall outcome with
              | .error msg => Except.ok (.errorResult msg)
              | .ok parsed =>
                  match parsed with
                  | .withError e => Except.ok (.errorResult e)
                  | .withResult payload => Except.ok (.okResult payload)
                  | .neither => Except.ok .emptyResult

/-! ## MCP Registry (`cron_mcp/mcp_registry.py`)

A URL string is modelled as `Option UrlParts`: `none` is a missing or empty
string (`if not url`), `some` a non-empty string together with its
`urllib.parse.urlparse` decomposition. -/

/-- The `scheme`/`netloc` fields of `urllib.parse.urlparse(url)`. -/
structure UrlParts where
  scheme : String
  netloc : String
deriving DecidableEq, Repr

/-- `validate_url` (mcp_registry.py lines 27–40): false for a missing/empty
url; otherwise the scheme must be `http` or `https` and the netloc
non-empty. -/
def validateUrl (url : Option UrlParts) : Bool :=
  match url with
  | none => false
  | some u => (u.scheme = "http" || u.scheme = "https") && !(u.netloc = "")

/-- A row of the `mcp_servers` table (the columns the verified operations
touch). -/
structure MCPServerRow where
  id : String
  name : String
  url : Option UrlParts
  transport : String
  description : Option String
  enabled : Bool
  createdAt : String
  updatedAt : String
deriving DecidableEq, Repr

/-- The `INSERT ... ON CONFLICT(name) DO UPDATE` of `add_server`
(mcp_registry.py lines 292–308): a name conflict updates url, transport,
description and `updated_at` but keeps id, enabled flag and `created_at`;
otherwise the new row is inserted with `created_at = updated_at = now`. -/
def upsertServer (store : List MCPServerRow) (server : MCPServerRow) (now : String) :
    List MCPServerRow :=
  if store.any (fun r => r.name = server.name) then
    store.map (fun r =>
      if r.name = server.name then
        { r with url := server.url, transport := server.transport
                 description := server.description, updatedAt := now }
      else r)
  else store ++ [{ server with createdAt := now, updatedAt := now }]

/-- `MCPRegistry.add_server` (mcp_registry.py lines 280–311): an invalid URL
raises `ValueError` before any statement touches the store. -/
def addServer (store : List MCPServerRow) (server : MCPServerRow) (now : String) :
    Except String (List MCPServerRow) :=
  if ¬ validateUrl server.url then
    Except.error ("Invalid URL for server '" ++ server.name ++
      "': URL must be a valid HTTP/HTTPS URL")
  else Except.ok (upsertServer store server now)

/-- One `servers:` entry of the YAML config file as `_load_from_config`
reads it. -/
structure ConfigEntry where
  name : Option String
  url : Option UrlParts
  transport : Option String
  description : Option String
deriving DecidableEq, Repr

/-- `MCPRegistry._load_from_config` (mcp_registry.py lines 164–205): entries
with a missing name or an invalid URL are skipped with a warning; an entry
whose name already exists is skipped; `add_server`'s `ValueError` is caught
and the loop continues with the remaining entries. -/
def loadFromConfig (store : List MCPServerRow) (entries : List ConfigEntry) (now : String) :
    List MCPServerRow :=
  entries.foldl (fun st e =>
    match e.name with
    | none => st
    | some nm =>
        if ¬ validateUrl e.url then st
        else if st.any (fun r => r.name = nm) then st
        else
          match addServer st
              { id := "config-" ++ nm, name := nm, url := e.url
                transport := e.transport.getD "http", description := e.description
                enabled := true, createdAt := now, updatedAt := now } now with
          | .ok st' => st'
          | .error _ => st) store

/-! ## `claudecron_toggle_task` (`cron_mcp/server.py` lines 740–784)

The persisted `tasks` rows are modelled by the columns the operation
touches. -/

/-- The columns of a `tasks` row that `claudecron_toggle_task` reads or
writes. -/
structure TaskRowMin where
  name : String
  enabled : Bool
  updatedAt : String
deriving DecidableEq, Repr

/-- The JSON payload `claudecron_toggle_task` returns. -/
inductive ToggleReply
  | errorNotFound (msg : String)
  | okMsg (msg : String)
deriving DecidableEq, Repr

/-- The effect of `UPDATE tasks SET enabled = ?, updated_at = ?` on one
row. -/
def toggleUpd (enabled : Bool) (now : String) (r : TaskRowMin) : TaskRowMin :=
  { r with enabled := enabled, updatedAt := now }

/-- `claudecron_toggle_task`: load the row by id (error payload if absent),
then `UPDATE tasks SET enabled = ?, updated_at = ? WHERE id = ?` with
`updated_at = datetime.now(UTC).isoformat()` — the update runs
unconditionally, whatever the stored `enabled` value was. -/
def toggleTask (store : List (String × TaskRowMin)) (taskId : String)
    (enabled : Bool) (now : String) : List (String × TaskRowMin) × ToggleReply :=
  match dictGet store taskId with
  | none => (store, .errorNotFound ("Task not found: " ++ taskId))
  | some row =>
      (store.map (fun kv =>
        if kv.1 = taskId then (kv.1, toggleUpd enabled now kv.2) else kv),
       .okMsg ("Task '" ++ row.name ++ "' " ++ (if enabled then "enabled" else "disabled")))

/-! ## Helper lemmas -/

lemma findMatchingMinute_ge (cronMatch : Nat → Bool) :
    ∀ (start fuel m : Nat), findMatchingMinute cronMatch start fuel = some m → start ≤ m := by
  intro start fuel
  induction fuel generalizing start with
  | zero => intro m h; simp [findMatchingMinute] at h
  | succ k ih =>
      intro m h
      simp only [findMatchingMinute] at h
      by_cases hm : cronMatch start
      · simp [hm] at h; omega
      · simp [hm] at h
        have := ih (start + 1) m h
        omega

/-! ## Claim theorems -/

/-- C1 (code_bug evidence): the due-check semantics the code implements —
base time `now` truncated to the minute when no prior execution exists, and
`next_run` strictly after the base — make `_should_run` return `False` for
EVERY enabled scheduled task without history, at every instant, for every
schedule and search horizon: `next_run` is a whole minute strictly after
`minuteFloor now`, hence `next_run ≥ minuteFloor now + 60 > now`, so the
required `next_run ≤ now` never holds.  A task with no prior executions
therefore never fires, contradicting the claim that it fires exactly once at
its due slot. -/
theorem should_run_never_fires_without_history (cronMatch : Nat → Bool) (now fuel : Nat) :
    shouldRun cronMatch none now fuel = false := by
  simp only [shouldRun, cronGetNext]
  cases h : findMatchingMinute cronMatch (60 * (now / 60) / 60 + 1) fuel with
  | none => simp [h]
  | some m =>
      have hge := findMatchingMinute_ge cronMatch (60 * (now / 60) / 60 + 1) fuel m h
      have hnot : ¬ (60 * m ≤ now) := by omega
      simp [h, hnot]

/-- C2 (counterexample): immediately after `asyncio.create_task` launches
the execution unit — the first state of the trace — the task id is NOT yet
in the running-task set: it is only added after the semaphore is acquired,
so the id is not present "for the entire lifetime from the moment the
execution unit is launched". -/
theorem runTask_id_absent_at_launch :
    ("t1" ∈ (runTaskTrace "t1" ∅ ExecOutcome.ok).headD ∅) = False := by
  simp [runTaskTrace]

/-- C2 (amended): once the guarded body begins (after semaphore
acquisition), the id is in the running set throughout the executor call, and
the `finally` removes it unconditionally — identically for normal completion
and executor exception — leaving exactly the ids that were there before. -/
theorem runTask_running_set (taskId : String) (s0 : Finset String) (outcome : ExecOutcome) :
    runTaskTrace taskId s0 outcome =
      [s0, insert taskId s0, (insert taskId s0).erase taskId] ∧
    taskId ∈ insert taskId s0 ∧
    taskId ∉ (insert taskId s0).erase taskId ∧
    ∀ j : String, j ≠ taskId → ((j ∈ (insert taskId s0).erase taskId) ↔ j ∈ s0) := by
  refine ⟨?_, Finset.mem_insert_self _ _, Finset.not_mem_erase _ _, ?_⟩
  · cases outcome <;> rfl
  · intro j hj
    simp [Finset.mem_erase, Finset.mem_insert, hj]

theorem runTask_running_set_witness :
    ("t2" : String) ≠ "t1" ∧
    (("t2" ∈ (insert "t1" (∅ : Finset String)).erase "t1") ↔ "t2" ∈ (∅ : Finset String)) :=
  ⟨by decide, (runTask_running_set "t1" ∅ ExecOutcome.ok).2.2.2 "t2" (by decide)⟩

/-- C3: the recursion-depth counter of the Mode A executor: entry at or
above `MAX_SUBAGENT_DEPTH` (3) fails fast with a recursion error; the
counter is restored to its entry value by every invocation (all exit paths
decrement); along any nested chain started within bounds the counter never
exceeds `MAX_SUBAGENT_DEPTH`; and a nested chain of `MAX_SUBAGENT_DEPTH + 1`
invocations from a fresh context fails on the last one with a recursion
error and unwinds back to counter 0. -/
theorem recursion_depth_guard :
    (∀ ctx, MAX_SUBAGENT_DEPTH ≤ ctx → ∃ msg, check_recursion_depth ctx = Except.error msg) ∧
    (∀ n ctx, (nestedChain n ctx).finalCtx = ctx) ∧
    (∀ n ctx, ctx ≤ MAX_SUBAGENT_DEPTH → (nestedChain n ctx).maxCtx ≤ MAX_SUBAGENT_DEPTH) ∧
    nestedChain (MAX_SUBAGENT_DEPTH + 1) 0 =
      { finalCtx := 0, recursionError := true, maxCtx := MAX_SUBAGENT_DEPTH } := by
  refine ⟨?_, ?_, ?_, by decide⟩
  · intro ctx h
    simp only [check_recursion_depth, if_pos h]
    exact ⟨_, rfl⟩
  · intro n ctx
    cases n with
    | zero => rfl
    | succ k =>
        simp only [nestedChain, check_recursion_depth]
        by_cases h : MAX_SUBAGENT_DEPTH ≤ ctx
        · simp [h]
        · simp [h, reset_recursion_depth]
  · intro n
    induction n with
    | zero => intro ctx h; simpa [nestedChain] using h
    | succ k ih =>
        intro ctx h
        simp only [nestedChain, check_recursion_depth]
        by_cases hc : MAX_SUBAGENT_DEPTH ≤ ctx
        · simpa [hc] using h
        · have hlt : ctx < MAX_SUBAGENT_DEPTH := by omega
          have hin := ih (ctx + 1) (by omega)
          simp only [hc, if_false, reset_recursion_depth]
          simp only [MAX_SUBAGENT_DEPTH] at *
          omega

theorem recursion_depth_guard_witness :
    (∃ msg, check_recursion_depth 3 = Except.error msg) ∧
    (nestedChain 2 1).maxCtx ≤ MAX_SUBAGENT_DEPTH :=
  ⟨recursion_depth_guard.1 3 (by decide), recursion_depth_guard.2.2.1 2 1 (by decide)⟩

lemma exit_code_msg_ne_empty (s : String) : "Exit code: " ++ s ≠ "" := by
  intro h
  have := congrArg String.length h
  simp [String.length_append] at this
  exact absurd this.1 (by decide)

/-- C4: the bash branch of `execute_task` uses the hard 300 s timeout, the
finalized status is `success` iff the subprocess exit code is 0, decoded
stdout is captured as the output (`None` when empty), and on non-zero exit
the status is `failed` with a non-empty error (stderr when present, else the
generic exit-code message); a timeout finalizes as `failed`. -/
theorem bash_branch_semantics (rc : Int) (out err : String) (sub : SubagentOutcome) :
    BASH_TIMEOUT_SECONDS = 300 ∧
    ((executeTaskRecord "bash" (.completed rc out err) sub).status = "success" ↔ rc = 0) ∧
    (executeTaskRecord "bash" (.completed rc out err) sub).output =
      (if out = "" then none else some out) ∧
    (rc ≠ 0 →
      (executeTaskRecord "bash" (.completed rc out err) sub).status = "failed" ∧
      ∃ e, (executeTaskRecord "bash" (.completed rc out err) sub).error = some e ∧ e ≠ "") ∧
    (rc = 0 → (executeTaskRecord "bash" (.completed rc out err) sub).error = none) ∧
    (executeTaskRecord "bash" .timedOut sub).status = "failed" := by
  by_cases h : rc = 0
  · subst h
    simp [executeTaskRecord, finalizeBash, BASH_TIMEOUT_SECONDS]
  · refine ⟨rfl, ?_, ?_, ?_, by intro h0; exact absurd h0 h, by rfl⟩
    · simp [executeTaskRecord, finalizeBash, h]
    · simp [executeTaskRecord, finalizeBash, h]
    · intro _
      refine ⟨by simp [executeTaskRecord, finalizeBash, h], ?_⟩
      by_cases he : err = ""
      · exact ⟨"Exit code: " ++ toString rc,
          by simp [executeTaskRecord, finalizeBash, h, he], exit_code_msg_ne_empty _⟩
      · exact ⟨err, by simp [executeTaskRecord, finalizeBash, h, he], he⟩

theorem bash_branch_semantics_witness :
    (executeTaskRecord "bash" (.completed 1 "" "") SubagentOutcome.timedOut).status = "failed" ∧
    ∃ e, (executeTaskRecord "bash" (.completed 1 "" "") SubagentOutcome.timedOut).error =
      some e ∧ e ≠ "" :=
  (bash_branch_semantics 1 "" "" SubagentOutcome.timedOut).2.2.2.1 (by decide)

/-- C5: for an existing task, both branches of `execute_task` funnel a
timeout or an unexpected exception into a finalized record with
`status = "failed"` and a descriptive error, the notification step never
alters or suppresses the returned summary, and the summary carries exactly
the finalized fields. -/
theorem execute_task_error_funnel (bash : BashOutcome) (sub : SubagentOutcome)
    (notifier : ExecRecord → Except String Unit) (msg : String) :
    executeTaskSummary "bash" bash sub notifier = executeTaskRecord "bash" bash sub ∧
    executeTaskSummary "subagent" bash sub notifier = executeTaskRecord "subagent" bash sub ∧
    executeTaskRecord "bash" BashOutcome.timedOut sub =
      { status := "failed", output := none, error := some "Task execution timed out"
        toolCalls := [], turnsUsed := 0 } ∧
    executeTaskRecord "bash" (BashOutcome.raised msg) sub =
      { status := "failed", output := none, error := some msg
        toolCalls := [], turnsUsed := 0 } ∧
    executeTaskRecord "subagent" bash SubagentOutcome.timedOut =
      { status := "failed", output := none, error := some "Task execution timed out"
        toolCalls := [], turnsUsed := 0 } ∧
    executeTaskRecord "subagent" bash (SubagentOutcome.raised msg) =
      { status := "failed", output := none, error := some msg
        toolCalls := [], turnsUsed := 0 } := by
  refine ⟨?_, ?_, by rfl, by rfl, by rfl, by rfl⟩
  · unfold executeTaskSummary
    cases h : notifier (executeTaskRecord "bash" bash sub) <;> simp [h]
  · unfold executeTaskSummary
    cases h : notifier (executeTaskRecord "subagent" bash sub) <;> simp [h]

/-- C10: `execute_task` dispatches only on the stored type strings `"bash"`
and `"subagent"`; any other stored type (including the spec's name
`"shell"`) runs no branch, raises nothing, and finalizes the record as
`status = "success"` with null output and error; the add-task validation is
the guard that rejects such types before persistence. -/
theorem execute_task_unknown_type (taskType : String) (bash : BashOutcome)
    (sub : SubagentOutcome) (h1 : taskType ≠ "bash") (h2 : taskType ≠ "subagent") :
    executeTaskRecord taskType bash sub =
      { status := "success", output := none, error := none, toolCalls := [], turnsUsed := 0 } ∧
    addTaskTypeCheck taskType = Except.error "Type must be 'bash' or 'subagent'" := by
  constructor
  · simp [executeTaskRecord, h1, h2]
  · simp [addTaskTypeCheck, h1, h2]

theorem execute_task_unknown_type_witness :
    executeTaskRecord "shell" (BashOutcome.completed 1 "" "boom") SubagentOutcome.timedOut =
      { status := "success", output := none, error := none, toolCalls := [], turnsUsed := 0 } ∧
    addTaskTypeCheck "shell" = Except.error "Type must be 'bash' or 'subagent'" :=
  execute_task_unknown_type "shell" (BashOutcome.completed 1 "" "boom")
    SubagentOutcome.timedOut (by decide) (by decide)

/-- C6: every tool returned by `to_anthropic_format` has a name containing
neither the reserved recursion-guard prefix `"claudecron_"` nor any
caller-supplied pattern, and the caller's exclude list is left unchanged by
the call. -/
theorem to_anthropic_format_excludes (sessions : List (List MCPTool))
    (exclude_patterns : Option (List String)) (t : AnthropicToolSpec)
    (ht : t ∈ (toAnthropicFormat sessions exclude_patterns).1) :
    (toAnthropicFormat sessions exclude_patterns).2 = exclude_patterns ∧
    strContainsSub t.name "claudecron_" = false ∧
    ∀ p ∈ exclude_patterns.getD [], strContainsSub t.name p = false := by
  refine ⟨rfl, ?_⟩
  simp only [toAnthropicFormat, List.mem_flatten, List.mem_map] at ht
  obtain ⟨l, ⟨sessionTools, hs, rfl⟩, htl⟩ := ht
  rw [List.mem_filterMap] at htl
  obtain ⟨tool, htool, hg⟩ := htl
  by_cases hx : (buildExclude exclude_patterns).any
      (fun pattern => strContainsSub tool.name pattern)
  · simp [hx] at hg
  · rw [if_neg hx] at hg
    have hname : t.name = tool.name := by
      cases hg; rfl
    have hall : ∀ p ∈ buildExclude exclude_patterns, strContainsSub tool.name p = false := by
      intro p hp
      have := List.any_eq_false.mp (Bool.of_not_eq_true hx) p hp
      simpa using this
    constructor
    · rw [hname]
      exact hall "claudecron_" (by
        simp [buildExclude])
    · intro p hp
      rw [hname]
      refine hall p ?_
      cases exclude_patterns with
      | none => simp at hp
      | some ps =>
          simp only [Option.getD] at hp
          exact List.mem_append_left _ hp

theorem to_anthropic_format_excludes_witness :
    (toAnthropicFormat [[{ name := "email_send", description := "Send email"
                           input_schema := "obj" }]] (some ["foo"])).2 = some ["foo"] ∧
    strContainsSub "email_send" "claudecron_" = false ∧
    ∀ p ∈ (some ["foo"] : Option (List String)).getD [],
      strContainsSub "email_send" p = false :=
  to_anthropic_format_excludes
    [[{ name := "email_send", description := "Send email", input_schema := "obj" }]]
    (some ["foo"])
    { name := "email_send", description := "Send email", input_schema := "obj" }
    (by decide)

/-- C7: `call_tool` never lets an exception escape to its caller: every
input — unmapped tool name (including a falsy empty mapped url), missing or
client-less session, and a raising remote invocation — produces an
`Except.ok` value, and each failure case carries an error-keyed structured
result with the code's message. -/
theorem call_tool_never_raises (toolToServer : List (String × String))
    (sessions : List (String × Bool)) (toolName : String) (outcome : HttpOutcome)
    (msg : String) :
    (∃ r, callTool toolToServer sessions toolName outcome = Except.ok r) ∧
    (dictGet toolToServer toolName = none →
      callTool toolToServer sessions toolName outcome =
        Except.ok (.errorResult ("Tool not found: " ++ toolName))) ∧
    (∀ serverUrl, dictGet toolToServer toolName = some serverUrl → serverUrl ≠ "" →
      dictGet sessions serverUrl = none →
      callTool toolToServer sessions toolName outcome =
        Except.ok (.errorResult ("Not connected to server for tool: " ++ toolName))) ∧
    (∀ serverUrl, dictGet toolToServer toolName = some serverUrl → serverUrl ≠ "" →
      dictGet sessions serverUrl = some true → outcome = .raisedExc msg →
      callTool toolToServer sessions toolName outcome = Except.ok (.errorResult msg)) := by
  refine ⟨?_, ?_, ?_, ?_⟩
  · unfold callTool remoteToolCall
    repeat' split
    all_goals exact ⟨_, rfl⟩
  · intro h
    simp [callTool, h]
  · intro serverUrl h hu hs
    simp [callTool, h, hu, hs]
  · intro serverUrl h hu hs ho
    simp [callTool, remoteToolCall, h, hu, hs, ho]

theorem call_tool_never_raises_witness :
    callTool [] [] "email_send" (HttpOutcome.raisedExc "boom") =
      Except.ok (.errorResult ("Tool not found: " ++ "email_send")) :=
  (call_tool_never_raises [] [] "email_send" (HttpOutcome.raisedExc "boom") "boom").2.1
    (by rfl)

/-- C8: the registry admits a server only with a valid absolute http/https
URL: the programmatic `add_server` rejects an invalid URL with a raised
error before touching the store and upserts on a valid one, URL validity of
all persisted rows is preserved by the upsert, and during bulk config
loading an entry with an invalid URL is skipped without affecting how the
remaining entries are loaded. -/
theorem registry_url_validation (store : List MCPServerRow) (server : MCPServerRow)
    (now : String) (e : ConfigEntry) (rest : List ConfigEntry) :
    (validateUrl server.url = false →
      addServer store server now =
        Except.error ("Invalid URL for server '" ++ server.name ++
          "': URL must be a valid HTTP/HTTPS URL")) ∧
    (validateUrl server.url = true →
      addServer store server now = Except.ok (upsertServer store server now)) ∧
    ((∀ r ∈ store, validateUrl r.url = true) → validateUrl server.url = true →
      ∀ r ∈ upsertServer store server now, validateUrl r.url = true) ∧
    (validateUrl e.url = false →
      loadFromConfig store (e :: rest) now = loadFromConfig store rest now) := by
  refine ⟨?_, ?_, ?_, ?_⟩
  · intro h
    simp [addServer, h]
  · intro h
    simp [addServer, h]
  · intro hstore hvalid r hr
    unfold upsertServer at hr
    by_cases hc : store.any (fun r => r.name = server.name)
    · rw [if_pos hc] at hr
      rw [List.mem_map] at hr
      obtain ⟨r0, hr0, hupd⟩ := hr
      by_cases hn : r0.name = server.name
      · rw [if_pos hn] at hupd
        rw [← hupd]
        exact hvalid
      · rw [if_neg hn] at hupd
        rw [← hupd]
        exact hstore r0 hr0
    · rw [if_neg hc] at hr
      rcases List.mem_append.mp hr with hold | hnew
      · exact hstore r hold
      · rw [List.mem_singleton] at hnew
        rw [hnew]
        exact hvalid
  · intro h
    unfold loadFromConfig
    rw [List.foldl_cons]
    cases hn : e.name with
    | none => rfl
    | some nm => simp [h]

theorem registry_url_validation_witness :
    addServer []
      { id := "s1", name := "email", url := none, transport := "http"
        description := none, enabled := true, createdAt := "", updatedAt := "" } "T0" =
      Except.error ("Invalid URL for server '" ++ "email" ++
        "': URL must be a valid HTTP/HTTPS URL") :=
  (registry_url_validation []
    { id := "s1", name := "email", url := none, transport := "http"
      description := none, enabled := true, createdAt := "", updatedAt := "" } "T0"
    { name := none, url := none, transport := none, description := none } []).1 (by rfl)

lemma dictGet_map_upd (f : TaskRowMin → TaskRowMin) (taskId : String) :
    ∀ (store : List (String × TaskRowMin)),
      dictGet (store.map (fun kv => if kv.1 = taskId then (kv.1, f kv.2) else kv)) taskId =
        (dictGet store taskId).map f := by
  intro store
  induction store with
  | nil => simp [dictGet]
  | cons kv rest ih =>
      by_cases h : kv.1 = taskId
      · simp [dictGet, h]
      · simp only [List.map_cons, dictGet, h, if_neg h, if_false]
        exact ih

lemma toggleUpd_absorb (e1 e2 : Bool) (n1 n2 : String) (r : TaskRowMin) :
    toggleUpd e2 n2 (toggleUpd e1 n1 r) = toggleUpd e2 n2 r := rfl

lemma map_toggleUpd_toggleUpd (e1 e2 : Bool) (n1 n2 taskId : String)
    (store : List (String × TaskRowMin)) :
    ((store.map (fun kv => if kv.1 = taskId then (kv.1, toggleUpd e1 n1 kv.2) else kv)).map
        (fun kv => if kv.1 = taskId then (kv.1, toggleUpd e2 n2 kv.2) else kv)) =
      store.map (fun kv => if kv.1 = taskId then (kv.1, toggleUpd e2 n2 kv.2) else kv) := by
  rw [List.map_map]
  apply List.map_congr_left
  intro kv _
  by_cases h : kv.1 = taskId
  · simp [Function.comp, h, toggleUpd_absorb]
  · simp [Function.comp, h]

/-- C9 (counterexample): toggling a task off twice in succession is NOT a
no-op on the persisted row: each call rewrites `updated_at` with its own
timestamp, so the state after the second call differs from the state after
one call. -/
theorem toggle_twice_differs_from_once :
    (toggleTask
        (toggleTask [("t1", { name := "demo", enabled := true, updatedAt := "T0" })]
          "t1" false "T1").1
        "t1" false "T2").1 ≠
      (toggleTask [("t1", { name := "demo", enabled := true, updatedAt := "T0" })]
        "t1" false "T1").1 := by
  decide

/-- C9 (amended): toggling off twice yields `enabled = false` just like a
single call, and the resulting store equals the store of a single call made
with the second call's timestamp — `updated_at` is the only field the second
call rewrites; with equal timestamps the two states coincide exactly. -/
theorem toggle_task_idempotent_up_to_timestamp (store : List (String × TaskRowMin))
    (taskId : String) (now1 now2 : String) (row : TaskRowMin)
    (h : dictGet store taskId = some row) :
    dictGet (toggleTask store taskId false now1).1 taskId =
      some { row with enabled := false, updatedAt := now1 } ∧
    (toggleTask (toggleTask store taskId false now1).1 taskId false now2).1 =
      (toggleTask store taskId false now2).1 ∧
    dictGet (toggleTask (toggleTask store taskId false now1).1 taskId false now2).1 taskId =
      some { row with enabled := false, updatedAt := now2 } ∧
    (now1 = now2 →
      (toggleTask (toggleTask store taskId false now1).1 taskId false now2).1 =
        (toggleTask store taskId false now1).1) := by
  have h1 : (toggleTask store taskId false now1).1 =
      store.map (fun kv => if kv.1 = taskId then
        (kv.1, toggleUpd false now1 kv.2) else kv) := by
    simp [toggleTask, h]
  have hget1 : dictGet (toggleTask store taskId false now1).1 taskId =
      some { row with enabled := false, updatedAt := now1 } := by
    rw [h1, dictGet_map_upd, h]
    rfl
  have h2 : (toggleTask (toggleTask store taskId false now1).1 taskId false now2).1 =
      (toggleTask store taskId false now1).1.map (fun kv => if kv.1 = taskId then
        (kv.1, toggleUpd false now2 kv.2) else kv) := by
    generalize hS : (toggleTask store taskId false now1).1 = S at hget1 ⊢
    simp [toggleTask, hget1]
  have hcomp : (toggleTask (toggleTask store taskId false now1).1 taskId false now2).1 =
      store.map (fun kv => if kv.1 = taskId then
        (kv.1, toggleUpd false now2 kv.2) else kv) := by
    rw [h2, h1, map_toggleUpd_toggleUpd]
  have hsingle2 : (toggleTask store taskId false now2).1 =
      store.map (fun kv => if kv.1 = taskId then
        (kv.1, toggleUpd false now2 kv.2) else kv) := by
    simp [toggleTask, h]
  refine ⟨hget1, by rw [hcomp, hsingle2], ?_, ?_⟩
  · rw [hcomp, dictGet_map_upd, h]
    rfl
  · intro heq
    subst heq
    rw [hcomp, h1]

theorem toggle_task_idempotent_up_to_timestamp_witness :
    dictGet (toggleTask [("t1", { name := "demo", enabled := true, updatedAt := "T0" })]
        "t1" false "T1").1 "t1" =
      some { name := "demo", enabled := false, updatedAt := "T1" } :=
  (toggle_task_idempotent_up_to_timestamp
    [("t1", { name := "demo", enabled := true, updatedAt := "T0" })] "t1" "T1" "T2"
    { name := "demo", enabled := true, updatedAt := "T0" } (by rfl)).1

end CronMCP
